import Mathlib

/-
  Verification development for the SmartKrishi backend.

  Shallow embedding of the streaming chat orchestrator
  (backend/app/services/integrated_chat_service.py: send_message_stream),
  its collaborators (chat_service.ensure_agent_chat / add_message,
  reasoning_service.create_reasoning_step_from_event), the SSE route wrapper
  (backend/app/routers/chat.py: stream_generator), the fallback message-edit
  endpoint (backend/app/routers/fallback.py: edit_message) and the fallback
  session activation (backend/app/services/fallback_service.py:
  activate_fallback).

  Modelling conventions:
  - The database is an explicit value threaded through each operation.
    SQLAlchemy commits are modelled as pure state updates; local DB inserts
    and commits are modelled as always succeeding (the try/except around the
    ReasoningStep insert guards against DB errors, which are outside this
    embedding).
  - External remote calls are oracles: the remote agent-chat creation is an
    `Except String String` argument (exception message or new chat id), and
    the upstream agent event stream is a finite list of events.  The
    timeout_wrapper's own except-branch (transport failure) is represented by
    the upstream list ending in an "error"-typed event, exactly the synthetic
    event the code fabricates.
  - Timestamps are Nats; `messages` lists are kept in insertion order with
    strictly increasing `created_at`, so SQLAlchemy's
    `order_by(created_at.desc()).first()` is the last matching list element.
-/

namespace SmartKrishi

/-- Payload of one upstream agent event; mirrors the `event.data` dict, with
`none` standing for an absent key.  `event.data.get(k, d)` is `(field).getD d`. -/
structure EventData where
  content : Option String := none
  response : Option String := none
  error : Option String := none
  deriving Repr, DecidableEq

/-- One upstream event from `agent_api.stream_message` (`{type, data}`). -/
structure UpEvent where
  type : String
  data : EventData := {}
  deriving Repr, DecidableEq

/-- A `chats` row (models/chat.py: Chat); only fields the core reads. -/
structure ChatRow where
  id : Nat
  user_id : Nat
  title : String := ""
  agent_chat_id : Option String := none
  is_deleted : Bool := false
  deriving Repr, DecidableEq

/-- A `chat_messages` row (models/chat.py: ChatMessage). -/
structure MsgRow where
  id : Nat
  chat_id : Nat
  user_id : Nat
  role : String
  content : String
  message_type : String := "text"
  is_edited : Bool := false
  original_content : Option String := none
  created_at : Nat
  edited_at : Option Nat := none
  deriving Repr, DecidableEq

/-- A `reasoning_steps` row (models/reasoning.py: ReasoningStep);
step_metadata/stage/tool fields are carried by `step_type` + the event type. -/
structure StepRow where
  message_id : Nat
  chat_id : Nat
  user_id : Nat
  step_type : String
  step_order : Nat
  deriving Repr, DecidableEq

/-- The chat-side database state. `nextMsgId` and `now` model the id and
`func.now()` generators (fresh id / strictly increasing timestamps). -/
structure DB where
  chats : List ChatRow
  messages : List MsgRow
  steps : List StepRow
  nextMsgId : Nat
  now : Nat
  deriving Repr, DecidableEq

/-- Events yielded to the HTTP layer (the dicts the service and route yield),
with only the fields the spec talks about. -/
inductive Frame where
  | chunk (content : String) (message_id : Nat) (chat_id : Nat)
  | responseF (content : String) (message_id : Nat) (chat_id : Nat)
  | errorF (error : String) (message_id : Option Nat) (chat_id : Nat)
  | otherF (etype : String) (message_id : Nat) (chat_id : Nat)
  | endF (message_id : Nat) (chat_id : Nat) (final_content : String)
  | routeEndF (chat_id : Nat)
  | routeErrorF (error : String) (chat_id : Nat)
  deriving Repr, DecidableEq

/-- The `"type"` field of a yielded event dict. -/
def Frame.ftype : Frame → String
  | .chunk .. => "response_chunk"
  | .responseF .. => "response"
  | .errorF .. => "error"
  | .otherF t _ _ => t
  | .endF .. => "end"
  | .routeEndF _ => "end"
  | .routeErrorF .. => "error"

/-- chat_service.py: ChatService.get_chat_by_id — first chat matching id,
owner, and not soft-deleted. -/
def get_chat_by_id (db : DB) (chat_id user_id : Nat) : Option ChatRow :=
  (db.chats.filter (fun c => c.id == chat_id && c.user_id == user_id && !c.is_deleted)).head?

/-- Persisting `chat.agent_chat_id` (the commit inside ensure_agent_chat). -/
def setAgentChatId (db : DB) (cid : Nat) (a : String) : DB :=
  { db with chats := db.chats.map (fun c => if c.id == cid then { c with agent_chat_id := some a } else c) }

/-- chat_service.py: ChatService.ensure_agent_chat.  Returns the cached id if
present; otherwise the remote creation oracle either yields a new id
(persisted) or an exception message (re-raised). -/
def ensure_agent_chat (db : DB) (chat : ChatRow) (remoteCreate : Except String String) :
    Except String (String × DB) :=
  match chat.agent_chat_id with
  | some a => .ok (a, db)
  | none =>
    match remoteCreate with
    | .ok newId => .ok (newId, setAgentChatId db chat.id newId)
    | .error e => .error e

/-- chat_service.py: ChatService.add_message — insert a row with a fresh id
and the current timestamp (the `updated_at` touch on the chat is not modelled:
no claim reads it). -/
def add_message (db : DB) (chat_id user_id : Nat) (role content : String) : MsgRow × DB :=
  let m : MsgRow := { id := db.nextMsgId, chat_id := chat_id, user_id := user_id,
                      role := role, content := content, created_at := db.now }
  (m, { db with messages := db.messages ++ [m], nextMsgId := db.nextMsgId + 1, now := db.now + 1 })

/-- Overwriting the assistant message's `content` column (the
`assistant_message.content = ...; db.commit()` pattern). -/
def setMessageContent (db : DB) (mid : Nat) (c : String) : DB :=
  { db with messages := db.messages.map (fun m => if m.id == mid then { m with content := c } else m) }

/-- integrated_chat_service.py lines 69-74: the duplicate-user-message query —
same chat, role "user", same content, same owner, ordered by created_at
descending, first row.  Messages are kept in ascending created_at order, so
this is the last matching element. -/
def latestMatchingUserMessage (db : DB) (chat_id user_id : Nat) (content : String) : Option MsgRow :=
  (db.messages.filter (fun m =>
    m.chat_id == chat_id && m.role == "user" && m.content == content && m.user_id == user_id)).getLast?

/-- reasoning_service.py: ReasoningService.create_reasoning_step_from_event +
create_reasoning_step — append one ReasoningStep row for the event. -/
def create_reasoning_step_from_event (db : DB) (mid cid uid : Nat) (e : UpEvent) (order : Nat) : DB :=
  { db with steps := db.steps ++ [{ message_id := mid, chat_id := cid, user_id := uid,
                                    step_type := e.type, step_order := order }] }

/-- The fixed apology written into the assistant message on an upstream
`error` event (integrated_chat_service.py line 184). -/
def apology (err : String) : String := "I apologize, but an error occurred: " ++ err

/-- integrated_chat_service.py lines 105-128: timeout_wrapper.  `count` is
incremented and the event yielded BEFORE the `count > 1000` check, so the
1001st event is still yielded; consumption stops after it. -/
def timeout_wrapper (evs : List UpEvent) : List UpEvent := evs.take 1001

/-- Result of the per-event forwarding loop: frames yielded so far, the
in-memory accumulator, and the database. -/
structure LoopResult where
  frames : List Frame
  acc : String
  db : DB
  deriving Repr, DecidableEq

/-- integrated_chat_service.py lines 130-206: the `async for event in
timeout_wrapper()` loop.  Each event first gets a ReasoningStep (step_order
pre-incremented), then is dispatched: `response_chunk` appends to the
accumulator and writes it through; `response` replaces accumulator and content
when non-empty; `error` writes the apology, forwards the error and breaks;
anything else is forwarded unchanged. -/
def processEvents (aid cid uid : Nat) :
    List UpEvent → Nat → String → DB → LoopResult
  | [], _, acc, db => ⟨[], acc, db⟩
  | e :: rest, order, acc, db =>
    let db1 := create_reasoning_step_from_event db aid cid uid e order
    if e.type = "response_chunk" then
      let ch := e.data.content.getD ""
      let r := processEvents aid cid uid rest (order + 1) (acc ++ ch) (setMessageContent db1 aid (acc ++ ch))
      ⟨Frame.chunk ch aid cid :: r.frames, r.acc, r.db⟩
    else if e.type = "response" then
      let fr := e.data.response.getD ""
      if fr ≠ "" then
        let r := processEvents aid cid uid rest (order + 1) fr (setMessageContent db1 aid fr)
        ⟨Frame.responseF fr aid cid :: r.frames, r.acc, r.db⟩
      else
        let r := processEvents aid cid uid rest (order + 1) acc db1
        ⟨Frame.responseF fr aid cid :: r.frames, r.acc, r.db⟩
    else if e.type = "error" then
      let err := e.data.error.getD "An error occurred"
      ⟨[Frame.errorF err (some aid) cid], acc, setMessageContent db1 aid (apology err)⟩
    else
      let r := processEvents aid cid uid rest (order + 1) acc db1
      ⟨Frame.otherF e.type aid cid :: r.frames, r.acc, r.db⟩

/-- Result of one send_message_stream invocation: the yielded events and the
final database. -/
structure StreamRes where
  events : List Frame
  db : DB
  deriving Repr, DecidableEq

/-- integrated_chat_service.py lines 68-87: reuse the existing user row found
by the dedup query, otherwise insert a new user ChatMessage. -/
def dedup_user_message (db : DB) (chat_id user_id : Nat) (message : String) : DB :=
  match latestMatchingUserMessage db chat_id user_id message with
  | some _ => db
  | none => (add_message db chat_id user_id "user" message).2

/-- integrated_chat_service.py lines 89-220, after the agent chat is ensured:
insert the empty assistant placeholder, run the forwarding loop over the
(capped) upstream, do the final write-through when the accumulator is
non-empty, and yield the terminal `end` event. -/
def stream_core (db2 : DB) (user_id chat_id : Nat) (upstream : List UpEvent) : StreamRes :=
  let am := add_message db2 chat_id user_id "assistant" ""
  let r := processEvents am.1.id chat_id user_id (timeout_wrapper upstream) 1 "" am.2
  let db5 := if r.acc ≠ "" then setMessageContent r.db am.1.id r.acc else r.db
  { events := r.frames ++ [Frame.endF am.1.id chat_id r.acc], db := db5 }

/-- integrated_chat_service.py: IntegratedChatService.send_message_stream.
`remoteCreate` is the remote chat-creation oracle, `upstream` the agent event
stream.  Chat-lookup failure raises ValueError, caught by the outer except
which yields a single `Service error: ...` event; ensure_agent_chat failure
yields a single `Failed to create agent chat: ...` event and returns (no
`end` event on either path).  Otherwise the turn proceeds with the
deduplicated user message and the streaming core. -/
def send_message_stream (db0 : DB) (user_id chat_id : Nat) (message : String)
    (remoteCreate : Except String String) (upstream : List UpEvent) : StreamRes :=
  match get_chat_by_id db0 chat_id user_id with
  | none =>
      { events := [Frame.errorF ("Service error: Chat " ++ toString chat_id ++ " not found") none chat_id],
        db := db0 }
  | some chat =>
    match ensure_agent_chat db0 chat remoteCreate with
    | .error e =>
        { events := [Frame.errorF ("Failed to create agent chat: " ++ e) none chat_id], db := db0 }
    | .ok (_, db1) =>
      stream_core (dedup_user_message db1 chat_id user_id message) user_id chat_id upstream

/-- routers/chat.py lines 380-417: the route's stream_generator.  It forwards
the orchestrator's events and appends a final `{"type":"end","chat_id":...}`
frame; if iteration raises after `k` forwarded events, it yields an error
frame and then the same final end frame. -/
def stream_generator (serviceEvents : List Frame) (raisedAt : Option (Nat × String)) (chat_id : Nat) :
    List Frame :=
  match raisedAt with
  | none => serviceEvents ++ [Frame.routeEndF chat_id]
  | some (k, msg) => serviceEvents.take k ++ [Frame.routeErrorF msg chat_id, Frame.routeEndF chat_id]

/-! ### Message-edit endpoint (routers/fallback.py: edit_message) -/

/-- routers/fallback.py lines 240-244: the target lookup — same id, owned by
the caller, role "user". -/
def edit_message_lookup (db : DB) (mid uid : Nat) : Option MsgRow :=
  (db.messages.filter (fun m => m.id == mid && m.user_id == uid && m.role == "user")).head?

/-- Python truthiness of `message.original_content`: both `None` and the empty
string are falsy in `if not message.original_content`. -/
def origFalsy : Option String → Bool
  | none => true
  | some s => s == ""

/-- routers/fallback.py lines 238-268, the body of the `try` block: 404 for a
missing/unowned/non-user message; otherwise record original_content if falsy,
overwrite content, mark edited, and delete every message of the same chat with
a strictly later created_at.  Returns the error status or the new state. -/
def edit_message_core (db : DB) (mid uid : Nat) (newContent : String) : Except Nat DB :=
  match edit_message_lookup db mid uid with
  | none => .error 404
  | some message =>
    let newOrig := if origFalsy message.original_content then some message.content
                   else message.original_content
    let msgs1 := db.messages.map (fun m =>
      if m.id == mid then
        { m with
            content := newContent,
            is_edited := true,
            original_content := newOrig,
            edited_at := some db.now }
      else m)
    let msgs2 := msgs1.filter (fun m => !(m.chat_id == message.chat_id && message.created_at < m.created_at))
    .ok { db with messages := msgs2, now := db.now + 1 }

/-- routers/fallback.py lines 230-282: the whole endpoint.  The blanket
`except Exception` has no preceding `except HTTPException: raise` (unlike
verify_fallback_phone at line 99), so the HTTPException(404) raised inside the
try block is caught and re-raised as 500 "Failed to edit message"; the DB is
rolled back (unchanged). -/
def edit_message (db : DB) (mid uid : Nat) (newContent : String) : Nat × DB :=
  match edit_message_core db mid uid newContent with
  | .ok db' => (200, db')
  | .error _ => (500, db)

/-! ### Fallback session activation (services/fallback_service.py) -/

/-- A `users` row, restricted to the fields activate_fallback reads. -/
structure UserRow where
  id : Nat
  fallback_phone : Option String := none
  fallback_phone_verified : Bool := false
  fallback_active : Bool := false
  deriving Repr, DecidableEq

/-- A `fallback_sessions` row (models/fallback.py: FallbackSession),
restricted to the fields the activation claims read. -/
structure FallbackSession where
  id : Nat
  user_id : Nat
  is_active : Bool := true
  deriving Repr, DecidableEq

/-- Database state for the fallback coordinator. -/
structure FallbackDB where
  users : List UserRow
  sessions : List FallbackSession
  nextSessionId : Nat
  deriving Repr, DecidableEq

/-- `db.query(User).filter(User.id == user_id).first()`. -/
def findUser (db : FallbackDB) (uid : Nat) : Option UserRow :=
  (db.users.filter (fun u => u.id == uid)).head?

/-- Python truthiness in `not user.fallback_phone or not
user.fallback_phone_verified`: the phone must be present and non-empty, and
verified. -/
def hasVerifiedPhone (u : UserRow) : Bool :=
  (match u.fallback_phone with | none => false | some p => p != "") && u.fallback_phone_verified

/-- fallback_service.py lines 189-191: the already-active check — first
session of this user with is_active true. -/
def activeSession (db : FallbackDB) (uid : Nat) : Option FallbackSession :=
  (db.sessions.filter (fun s => s.user_id == uid && s.is_active)).head?

/-- fallback_service.py lines 174-233: FallbackService.activate_fallback in
the sequential execution model.  Returns None without a verified phone;
returns the existing session if one is active; otherwise inserts an active
session and flips the user's fallback_active.  The post-commit gateway calls
(register_phone, send_sms, start_sms_listener) return booleans and never
raise — sms_service catches its own exceptions — so the rollback branch is
unreachable and is not modelled. -/
def activate_fallback (db : FallbackDB) (uid : Nat) : Option FallbackSession × FallbackDB :=
  match findUser db uid with
  | none => (none, db)
  | some u =>
    if !(hasVerifiedPhone u) then (none, db)
    else
      match activeSession db uid with
      | some s => (some s, db)
      | none =>
        let s : FallbackSession := { id := db.nextSessionId, user_id := uid, is_active := true }
        (some s,
         { users := db.users.map (fun v => if v.id == uid then { v with fallback_active := true } else v),
           sessions := db.sessions ++ [s],
           nextSessionId := db.nextSessionId + 1 })

/-! ### Derived observations used in claim statements -/

/-- The ReasoningStep rows recorded for one message id, in insertion order. -/
def stepsFor (db : DB) (mid : Nat) : List StepRow :=
  db.steps.filter (fun s => s.message_id == mid)

/-- The first stored message row with the given id (ids are unique in
well-formed states). -/
def messageById (db : DB) (mid : Nat) : Option MsgRow :=
  (db.messages.filter (fun m => m.id == mid)).head?

/-- The persisted `content` of a message. -/
def contentOf (db : DB) (mid : Nat) : Option String :=
  (messageById db mid).map MsgRow.content

/-- The persisted `original_content` of a message. -/
def origOf (db : DB) (mid : Nat) : Option String :=
  (messageById db mid).bind MsgRow.original_content

/-- The role="user" rows of one chat, in insertion order. -/
def userRows (db : DB) (cid : Nat) : List MsgRow :=
  db.messages.filter (fun m => m.chat_id == cid && m.role == "user")

/-- The claim's own notion for C6 (the spec's words): the most recent
role="user" message of the chat, regardless of content.  Messages are in
ascending created_at order, so this is the last user row. -/
def mostRecentUserMessage (db : DB) (cid : Nat) : Option MsgRow :=
  (userRows db cid).getLast?

/-- The sessions of one user that are currently active. -/
def activeSessionsFor (db : FallbackDB) (uid : Nat) : List FallbackSession :=
  db.sessions.filter (fun s => s.user_id == uid && s.is_active)

/-- The prefix of the upstream event list the forwarding loop actually
consumes: everything up to and including the first "error"-typed event (the
loop records and forwards the error, then breaks). -/
def consumed : List UpEvent → List UpEvent
  | [] => []
  | e :: rest => if e.type = "error" then [e] else e :: consumed rest

/-- The ReasoningStep rows the loop inserts for a list of consumed events,
numbering from `order`. -/
def enumSteps (aid cid uid : Nat) : List UpEvent → Nat → List StepRow
  | [], _ => []
  | e :: rest, order =>
    { message_id := aid, chat_id := cid, user_id := uid,
      step_type := e.type, step_order := order } :: enumSteps aid cid uid rest (order + 1)

/-- Well-formedness of a chat database: message ids are unique and below the
id generator, and ReasoningStep rows only reference existing (hence
below-generator) message ids. -/
def DBWF (db : DB) : Prop :=
  (db.messages.map MsgRow.id).Nodup ∧
  (∀ m ∈ db.messages, m.id < db.nextMsgId) ∧
  (∀ s ∈ db.steps, s.message_id < db.nextMsgId)

/-! ### List and state-projection helpers -/

theorem filter_map_pres {α : Type} (f : α → α) (p : α → Bool) (l : List α)
    (hp : ∀ a, p (f a) = p a) :
    (l.map f).filter p = (l.filter p).map f := by
  induction l with
  | nil => rfl
  | cons a l ih =>
    simp only [List.map_cons, List.filter_cons, hp a]
    cases h : p a <;> simp [ih]

theorem head?_map' {α β : Type} (f : α → β) (l : List α) :
    (l.map f).head? = l.head?.map f := by
  cases l <;> rfl

theorem head?_filter_mem {α : Type} (p : α → Bool) (l : List α) (a : α)
    (h : (l.filter p).head? = some a) : a ∈ l ∧ p a = true := by
  have hm : a ∈ l.filter p := by
    cases hl : l.filter p with
    | nil => rw [hl] at h; cases h
    | cons x xs =>
      rw [hl] at h
      have hx : x = a := by injection h
      exact hx ▸ List.mem_cons_self x xs
  exact ⟨(List.mem_filter.mp hm).1, (List.mem_filter.mp hm).2⟩

theorem filter_eq_nil_of_forall {α : Type} (p : α → Bool) (l : List α)
    (h : ∀ a ∈ l, p a = false) : l.filter p = [] := by
  induction l with
  | nil => rfl
  | cons a l ih =>
    simp only [List.filter_cons, h a (List.mem_cons_self a l)]
    exact ih (fun b hb => h b (List.mem_cons_of_mem a hb))

theorem getLast?_append_singleton {α : Type} (l : List α) (a : α) :
    (l ++ [a]).getLast? = some a := by
  induction l with
  | nil => rfl
  | cons b l ih =>
    cases l with
    | nil => rfl
    | cons c l' => simpa using ih

theorem head?_all_eq {α : Type} (l : List α) (a : α) (hne : l ≠ [])
    (h : ∀ b ∈ l, b = a) : l.head? = some a := by
  cases l with
  | nil => exact absurd rfl hne
  | cons x xs => simpa using h x (List.mem_cons_self x xs)

@[simp] theorem create_step_messages (db : DB) (mid cid uid : Nat) (e : UpEvent) (o : Nat) :
    (create_reasoning_step_from_event db mid cid uid e o).messages = db.messages := rfl

@[simp] theorem create_step_steps (db : DB) (mid cid uid : Nat) (e : UpEvent) (o : Nat) :
    (create_reasoning_step_from_event db mid cid uid e o).steps
      = db.steps ++ [{ message_id := mid, chat_id := cid, user_id := uid,
                       step_type := e.type, step_order := o }] := rfl

@[simp] theorem setMessageContent_steps (db : DB) (mid : Nat) (c : String) :
    (setMessageContent db mid c).steps = db.steps := rfl

@[simp] theorem setMessageContent_messages (db : DB) (mid : Nat) (c : String) :
    (setMessageContent db mid c).messages
      = db.messages.map (fun m => if m.id == mid then { m with content := c } else m) := rfl

/-! ### Structural lemmas about the forwarding loop -/

theorem consumed_of_noError (evs : List UpEvent) (h : ∀ e ∈ evs, e.type ≠ "error") :
    consumed evs = evs := by
  induction evs with
  | nil => rfl
  | cons e rest ih =>
    simp only [consumed, if_neg (h e (List.mem_cons_self e rest))]
    rw [ih (fun x hx => h x (List.mem_cons_of_mem e hx))]

theorem consumed_length_le (evs : List UpEvent) : (consumed evs).length ≤ evs.length := by
  induction evs with
  | nil => simp [consumed]
  | cons e rest ih =>
    simp only [consumed]
    split
    · simp
    · simpa using ih

theorem enumSteps_orders (aid cid uid : Nat) (evs : List UpEvent) :
    ∀ order : Nat, (enumSteps aid cid uid evs order).map StepRow.step_order
      = List.range' order evs.length := by
  induction evs with
  | nil => intro order; rfl
  | cons e rest ih => intro order; simp [enumSteps, List.range', ih]

theorem enumSteps_types (aid cid uid : Nat) (evs : List UpEvent) :
    ∀ order : Nat, (enumSteps aid cid uid evs order).map StepRow.step_type
      = evs.map UpEvent.type := by
  induction evs with
  | nil => intro order; rfl
  | cons e rest ih => intro order; simp [enumSteps, ih]

theorem enumSteps_filter_self (aid cid uid : Nat) (evs : List UpEvent) :
    ∀ order : Nat, (enumSteps aid cid uid evs order).filter (fun s => s.message_id == aid)
      = enumSteps aid cid uid evs order := by
  induction evs with
  | nil => intro order; rfl
  | cons e rest ih => intro order; simp [enumSteps, List.filter_cons, ih]

theorem processEvents_steps (aid cid uid : Nat) (evs : List UpEvent) :
    ∀ (order : Nat) (acc : String) (db : DB),
      (processEvents aid cid uid evs order acc db).db.steps
        = db.steps ++ enumSteps aid cid uid (consumed evs) order := by
  induction evs with
  | nil => intro order acc db; simp [processEvents, consumed, enumSteps]
  | cons e rest ih =>
    intro order acc db
    by_cases h1 : e.type = "response_chunk"
    · simp [processEvents, h1, consumed, enumSteps, ih, List.append_assoc]
    · by_cases h2 : e.type = "response"
      · simp only [processEvents, if_neg h1, if_pos h2]
        split <;> simp [consumed, enumSteps, h2, ih, List.append_assoc]
      · by_cases h3 : e.type = "error"
        · simp [processEvents, h1, h2, h3, consumed, enumSteps]
        · simp [processEvents, h1, h2, h3, consumed, enumSteps, ih, List.append_assoc]

theorem processEvents_frames_length (aid cid uid : Nat) (evs : List UpEvent) :
    ∀ (order : Nat) (acc : String) (db : DB),
      (processEvents aid cid uid evs order acc db).frames.length = (consumed evs).length := by
  induction evs with
  | nil => intro order acc db; simp [processEvents, consumed]
  | cons e rest ih =>
    intro order acc db
    by_cases h1 : e.type = "response_chunk"
    · simp [processEvents, h1, consumed, ih]
    · by_cases h2 : e.type = "response"
      · simp only [processEvents, if_neg h1, if_pos h2]
        split <;> simp [consumed, h2, ih]
      · by_cases h3 : e.type = "error"
        · simp [processEvents, h1, h2, h3, consumed]
        · simp [processEvents, h1, h2, h3, consumed, ih]

/-- All content writes of the loop target the assistant row `aid`: the final
message list is the initial one with at most one content overwrite applied. -/
def applyCo (l : List MsgRow) (aid : Nat) : Option String → List MsgRow
  | none => l
  | some c => l.map (fun m => if m.id == aid then { m with content := c } else m)

theorem applyCo_applyCo (l : List MsgRow) (aid : Nat) (c : String) (co : Option String) :
    applyCo (applyCo l aid (some c)) aid co = applyCo l aid (some (co.getD c)) := by
  cases co with
  | none => rfl
  | some c2 =>
    simp only [applyCo, Option.getD, List.map_map]
    apply List.map_congr_left
    intro m _
    by_cases h : m.id = aid <;> simp [h]

theorem processEvents_messages (aid cid uid : Nat) (evs : List UpEvent) :
    ∀ (order : Nat) (acc : String) (db : DB), ∃ co : Option String,
      (processEvents aid cid uid evs order acc db).db.messages = applyCo db.messages aid co := by
  induction evs with
  | nil => intro order acc db; exact ⟨none, rfl⟩
  | cons e rest ih =>
    intro order acc db
    by_cases h1 : e.type = "response_chunk"
    · obtain ⟨co, hco⟩ := ih (order + 1) (acc ++ e.data.content.getD "")
        (setMessageContent (create_reasoning_step_from_event db aid cid uid e order) aid
          (acc ++ e.data.content.getD ""))
      refine ⟨some (co.getD (acc ++ e.data.content.getD "")), ?_⟩
      simp only [processEvents, if_pos h1]
      rw [hco]
      simp only [setMessageContent_messages, create_step_messages]
      exact applyCo_applyCo db.messages aid _ co
    · by_cases h2 : e.type = "response"
      · by_cases h3 : e.data.response.getD "" ≠ ""
        · obtain ⟨co, hco⟩ := ih (order + 1) (e.data.response.getD "")
            (setMessageContent (create_reasoning_step_from_event db aid cid uid e order) aid
              (e.data.response.getD ""))
          refine ⟨some (co.getD (e.data.response.getD "")), ?_⟩
          simp only [processEvents, if_neg h1, if_pos h2, if_pos h3]
          rw [hco]
          simp only [setMessageContent_messages, create_step_messages]
          exact applyCo_applyCo db.messages aid _ co
        · obtain ⟨co, hco⟩ := ih (order + 1) acc (create_reasoning_step_from_event db aid cid uid e order)
          refine ⟨co, ?_⟩
          simp only [processEvents, if_neg h1, if_pos h2, if_neg h3]
          rw [hco]
          simp only [create_step_messages]
      · by_cases h3 : e.type = "error"
        · refine ⟨some (apology (e.data.error.getD "An error occurred")), ?_⟩
          simp [processEvents, h1, h2, h3, applyCo]
        · obtain ⟨co, hco⟩ := ih (order + 1) acc (create_reasoning_step_from_event db aid cid uid e order)
          refine ⟨co, ?_⟩
          simp only [processEvents, if_neg h1, if_neg h2, if_neg h3]
          rw [hco]
          simp only [create_step_messages]

/-! ### Content tracking through the loop -/

theorem contentOf_create_step (db : DB) (mid cid uid : Nat) (e : UpEvent) (o : Nat) (aid : Nat) :
    contentOf (create_reasoning_step_from_event db mid cid uid e o) aid = contentOf db aid := rfl

theorem contentOf_exists (db : DB) (mid : Nat) (c : String) (h : contentOf db mid = some c) :
    ∃ m ∈ db.messages, m.id = mid := by
  unfold contentOf messageById at h
  cases hh : (db.messages.filter (fun m => m.id == mid)).head? with
  | none => rw [hh] at h; cases h
  | some m =>
    obtain ⟨hm, hp⟩ := head?_filter_mem _ _ _ hh
    exact ⟨m, hm, by simpa using hp⟩

theorem contentOf_set (db : DB) (mid : Nat) (c : String)
    (h : ∃ m ∈ db.messages, m.id = mid) :
    contentOf (setMessageContent db mid c) mid = some c := by
  obtain ⟨m0, hm0, hid0⟩ := h
  unfold contentOf messageById
  rw [setMessageContent_messages]
  rw [filter_map_pres _ _ _ (fun m => by by_cases hm : m.id = mid <;> simp [hm])]
  rw [head?_map']
  have hne : db.messages.filter (fun m => m.id == mid) ≠ [] :=
    List.ne_nil_of_mem (List.mem_filter.mpr ⟨hm0, by simpa using hid0⟩)
  obtain ⟨x, xs, hxl⟩ := List.exists_cons_of_ne_nil hne
  have hx : x.id = mid := by
    have : x ∈ db.messages.filter (fun m => m.id == mid) := by
      rw [hxl]; exact List.mem_cons_self x xs
    simpa using (List.mem_filter.mp this).2
  rw [hxl]
  simp [hx]

/-- Loop invariant: the assistant row's persisted content equals the
accumulator, except after an upstream `error` event, where it is the apology
string. -/
theorem processEvents_content (aid cid uid : Nat) (evs : List UpEvent) :
    ∀ (order : Nat) (acc : String) (db : DB), contentOf db aid = some acc →
      contentOf (processEvents aid cid uid evs order acc db).db aid
          = some (processEvents aid cid uid evs order acc db).acc ∨
        ∃ e, contentOf (processEvents aid cid uid evs order acc db).db aid = some (apology e) := by
  induction evs with
  | nil => intro order acc db h; exact Or.inl (by simpa [processEvents] using h)
  | cons e rest ih =>
    intro order acc db h
    have hex : ∃ m ∈ db.messages, m.id = aid := contentOf_exists db aid acc h
    by_cases h1 : e.type = "response_chunk"
    · have hset : contentOf (setMessageContent (create_reasoning_step_from_event db aid cid uid e order)
          aid (acc ++ e.data.content.getD "")) aid = some (acc ++ e.data.content.getD "") :=
        contentOf_set _ aid _ (by simpa using hex)
      have := ih (order + 1) (acc ++ e.data.content.getD "") _ hset
      simpa [processEvents, h1] using this
    · by_cases h2 : e.type = "response"
      · by_cases h3 : e.data.response.getD "" ≠ ""
        · have hset : contentOf (setMessageContent (create_reasoning_step_from_event db aid cid uid e order)
              aid (e.data.response.getD "")) aid = some (e.data.response.getD "") :=
            contentOf_set _ aid _ (by simpa using hex)
          have := ih (order + 1) (e.data.response.getD "") _ hset
          simpa [processEvents, h1, h2, h3] using this
        · have := ih (order + 1) acc (create_reasoning_step_from_event db aid cid uid e order)
            (by simpa [contentOf_create_step] using h)
          simpa [processEvents, h1, h2, h3] using this
      · by_cases h3 : e.type = "error"
        · refine Or.inr ⟨e.data.error.getD "An error occurred", ?_⟩
          have hset : contentOf (setMessageContent (create_reasoning_step_from_event db aid cid uid e order)
              aid (apology (e.data.error.getD "An error occurred"))) aid
                = some (apology (e.data.error.getD "An error occurred")) :=
            contentOf_set _ aid _ (by simpa using hex)
          simpa [processEvents, h1, h2, h3] using hset
        · have := ih (order + 1) acc (create_reasoning_step_from_event db aid cid uid e order)
            (by simpa [contentOf_create_step] using h)
          simpa [processEvents, h1, h2, h3] using this

/-- When the upstream list ends in a `response` event with a non-empty
response and no earlier event is an `error`, the loop's final accumulator is
exactly that response value. -/
theorem processEvents_acc_last_response (aid cid uid : Nat) (pre : List UpEvent) (ev : UpEvent)
    (resp : String) (hne : ∀ x ∈ pre, x.type ≠ "error") (hty : ev.type = "response")
    (hr : ev.data.response = some resp) (hresp : resp ≠ "") :
    ∀ (order : Nat) (acc : String) (db : DB),
      (processEvents aid cid uid (pre ++ [ev]) order acc db).acc = resp := by
  induction pre with
  | nil =>
    intro order acc db
    simp [processEvents, hty, hr, hresp]
  | cons e rest ih =>
    intro order acc db
    have hnee : e.type ≠ "error" := hne e (List.mem_cons_self e rest)
    have hner : ∀ x ∈ rest, x.type ≠ "error" := fun x hx => hne x (List.mem_cons_of_mem e hx)
    by_cases h1 : e.type = "response_chunk"
    · simpa [processEvents, h1] using ih hner (order + 1) _ _
    · by_cases h2 : e.type = "response"
      · by_cases h3 : e.data.response.getD "" ≠ ""
        · simpa [processEvents, h1, h2, h3] using ih hner (order + 1) _ _
        · simpa [processEvents, h1, h2, h3] using ih hner (order + 1) _ _
      · simpa [processEvents, h1, h2, hnee] using ih hner (order + 1) _ _

/-! ### Bookkeeping through the pre-loop steps -/

@[simp] theorem add_message_steps (db : DB) (cid uid : Nat) (role content : String) :
    (add_message db cid uid role content).2.steps = db.steps := rfl

@[simp] theorem add_message_nextMsgId (db : DB) (cid uid : Nat) (role content : String) :
    (add_message db cid uid role content).2.nextMsgId = db.nextMsgId + 1 := rfl

@[simp] theorem add_message_fst_id (db : DB) (cid uid : Nat) (role content : String) :
    (add_message db cid uid role content).1.id = db.nextMsgId := rfl

theorem add_message_messages (db : DB) (cid uid : Nat) (role content : String) :
    (add_message db cid uid role content).2.messages
      = db.messages ++ [{ id := db.nextMsgId, chat_id := cid, user_id := uid,
                          role := role, content := content, created_at := db.now }] := rfl

theorem ensure_ok_fields (db : DB) (chat : ChatRow) (rc : Except String String) (g : String) (db' : DB)
    (h : ensure_agent_chat db chat rc = Except.ok (g, db')) :
    db'.messages = db.messages ∧ db'.steps = db.steps ∧ db'.nextMsgId = db.nextMsgId ∧ db'.now = db.now := by
  unfold ensure_agent_chat at h
  cases hc : chat.agent_chat_id with
  | some a =>
    rw [hc] at h
    simp only [Except.ok.injEq, Prod.mk.injEq] at h
    obtain ⟨-, h2⟩ := h
    subst h2
    exact ⟨rfl, rfl, rfl, rfl⟩
  | none =>
    rw [hc] at h
    cases rc with
    | error e => cases h
    | ok newId =>
      simp only [Except.ok.injEq, Prod.mk.injEq] at h
      obtain ⟨-, h2⟩ := h
      subst h2
      exact ⟨rfl, rfl, rfl, rfl⟩

theorem dedup_idsLt (db : DB) (cid uid : Nat) (msg : String)
    (h : ∀ m ∈ db.messages, m.id < db.nextMsgId) :
    ∀ m ∈ (dedup_user_message db cid uid msg).messages,
      m.id < (dedup_user_message db cid uid msg).nextMsgId := by
  unfold dedup_user_message
  cases latestMatchingUserMessage db cid uid msg with
  | some _ => exact h
  | none =>
    intro m hm
    rw [add_message_messages] at hm
    rcases List.mem_append.mp hm with h1 | h1
    · exact Nat.lt_succ_of_lt (h m h1)
    · simp only [List.mem_singleton] at h1
      subst h1
      exact Nat.lt_succ_self _

theorem dedup_steps (db : DB) (cid uid : Nat) (msg : String) :
    (dedup_user_message db cid uid msg).steps = db.steps := by
  unfold dedup_user_message
  cases latestMatchingUserMessage db cid uid msg <;> rfl

theorem dedup_nextMsgId_le (db : DB) (cid uid : Nat) (msg : String) :
    db.nextMsgId ≤ (dedup_user_message db cid uid msg).nextMsgId := by
  unfold dedup_user_message
  cases latestMatchingUserMessage db cid uid msg with
  | some _ => exact Nat.le_refl _
  | none => exact Nat.le_succ _

theorem send_ok (db0 : DB) (uid cid : Nat) (msg : String) (rc : Except String String)
    (up : List UpEvent) (chat : ChatRow) (g : String) (db1 : DB)
    (hchat : get_chat_by_id db0 cid uid = some chat)
    (hens : ensure_agent_chat db0 chat rc = Except.ok (g, db1)) :
    send_message_stream db0 uid cid msg rc up
      = stream_core (dedup_user_message db1 cid uid msg) uid cid up := by
  simp only [send_message_stream, hchat, hens]

theorem contentOf_add_message (db : DB) (cid uid : Nat) (role content : String)
    (h : ∀ m ∈ db.messages, m.id ≠ db.nextMsgId) :
    contentOf (add_message db cid uid role content).2 db.nextMsgId = some content := by
  unfold contentOf messageById
  rw [add_message_messages, List.filter_append,
    filter_eq_nil_of_forall _ _ (fun m hm => by simp [h m hm])]
  simp

/-! ### Characterization of the streaming core -/

/-- The accumulator value at the end of the forwarding loop of one
`stream_core` run (the value the terminal `end` event carries). -/
def coreAcc (db2 : DB) (uid cid : Nat) (up : List UpEvent) : String :=
  (processEvents db2.nextMsgId cid uid (timeout_wrapper up) 1 ""
    (add_message db2 cid uid "assistant" "").2).acc

theorem stream_core_last (db2 : DB) (uid cid : Nat) (up : List UpEvent) :
    (stream_core db2 uid cid up).events.getLast?
      = some (Frame.endF db2.nextMsgId cid (coreAcc db2 uid cid up)) := by
  unfold stream_core coreAcc
  exact getLast?_append_singleton _ _

theorem stream_core_end_content (db2 : DB) (uid cid : Nat) (up : List UpEvent)
    (hlt : ∀ m ∈ db2.messages, m.id < db2.nextMsgId) :
    contentOf (stream_core db2 uid cid up).db db2.nextMsgId = some (coreAcc db2 uid cid up) ∨
      (coreAcc db2 uid cid up = "" ∧
        ∃ e, contentOf (stream_core db2 uid cid up).db db2.nextMsgId = some (apology e)) := by
  have h0 : contentOf (add_message db2 cid uid "assistant" "").2 db2.nextMsgId = some "" :=
    contentOf_add_message db2 cid uid "assistant" "" (fun m hm => Nat.ne_of_lt (hlt m hm))
  have hinv := processEvents_content db2.nextMsgId cid uid (timeout_wrapper up) 1 ""
    (add_message db2 cid uid "assistant" "").2 h0
  unfold stream_core coreAcc
  simp only [add_message_fst_id]
  by_cases hacc : (processEvents db2.nextMsgId cid uid (timeout_wrapper up) 1 ""
      (add_message db2 cid uid "assistant" "").2).acc = ""
  · rw [if_neg (fun hne => hne hacc)]
    rcases hinv with hl | ⟨e, hr⟩
    · exact Or.inl hl
    · exact Or.inr ⟨hacc, e, hr⟩
  · rw [if_pos hacc]
    left
    have hex : ∃ m ∈ (processEvents db2.nextMsgId cid uid (timeout_wrapper up) 1 ""
        (add_message db2 cid uid "assistant" "").2).db.messages, m.id = db2.nextMsgId := by
      rcases hinv with hl | ⟨e, hr⟩
      · exact contentOf_exists _ _ _ hl
      · exact contentOf_exists _ _ _ hr
    exact contentOf_set _ _ _ hex

theorem stream_core_steps (db2 : DB) (uid cid : Nat) (up : List UpEvent)
    (hstep : ∀ s ∈ db2.steps, s.message_id ≠ db2.nextMsgId) :
    stepsFor (stream_core db2 uid cid up).db db2.nextMsgId
      = enumSteps db2.nextMsgId cid uid (consumed (timeout_wrapper up)) 1 := by
  unfold stream_core stepsFor
  simp only [add_message_fst_id]
  have hmain : List.filter (fun s => s.message_id == db2.nextMsgId)
      (processEvents db2.nextMsgId cid uid (timeout_wrapper up) 1 ""
        (add_message db2 cid uid "assistant" "").2).db.steps
      = enumSteps db2.nextMsgId cid uid (consumed (timeout_wrapper up)) 1 := by
    rw [processEvents_steps, add_message_steps, List.filter_append,
      filter_eq_nil_of_forall _ _ (fun s hs => by simp [hstep s hs]),
      enumSteps_filter_self]
    exact List.nil_append _
  split
  · simpa [setMessageContent_steps] using hmain
  · exact hmain

theorem stream_core_events_length (db2 : DB) (uid cid : Nat) (up : List UpEvent) :
    (stream_core db2 uid cid up).events.length = (consumed (timeout_wrapper up)).length + 1 := by
  unfold stream_core
  simp [processEvents_frames_length]

theorem filter_applyCo (aid : Nat) (co : Option String) (p : MsgRow → Bool)
    (hp : ∀ (m : MsgRow) (c : String), p { m with content := c } = p m) :
    ∀ l : List MsgRow, (∀ m ∈ l, m.id = aid → p m = false) →
      (applyCo l aid co).filter p = l.filter p := by
  intro l
  induction l with
  | nil => intro _; cases co <;> rfl
  | cons m l ih =>
    intro hid
    have hidt : ∀ x ∈ l, x.id = aid → p x = false :=
      fun x hx => hid x (List.mem_cons_of_mem m hx)
    have iht := ih hidt
    cases co with
    | none => rfl
    | some c =>
      have iht' := iht
      simp only [applyCo] at iht' ⊢
      rw [List.map_cons, List.filter_cons, List.filter_cons]
      have hupdkey : p (if m.id == aid then { m with content := c } else m) = p m := by
        by_cases h : m.id = aid
        · rw [if_pos (by simpa using h)]
          exact hp m c
        · rw [if_neg (by simpa using h)]
      rw [hupdkey]
      by_cases hpm : p m = true
      · rw [if_pos hpm, if_pos hpm]
        have hne : m.id ≠ aid := by
          intro hh
          rw [hid m (List.mem_cons_self m l) hh] at hpm
          cases hpm
        rw [if_neg (fun hh : (m.id == aid) = true => hne (by simpa using hh))]
        rw [iht']
      · rw [if_neg hpm, if_neg hpm]
        exact iht'

theorem applyCo_exists_id (l : List MsgRow) (aid : Nat) (co : Option String)
    (h : ∃ m ∈ l, m.id = aid) : ∃ m ∈ applyCo l aid co, m.id = aid := by
  cases co with
  | none => exact h
  | some c =>
    obtain ⟨m, hm, hid⟩ := h
    refine ⟨if m.id == aid then { m with content := c } else m, List.mem_map_of_mem _ hm, ?_⟩
    by_cases h : m.id = aid <;> simp [h, hid]

/-- The streaming core never adds, removes, or edits role="user" rows: the
assistant placeholder has role "assistant" and all content writes target its
fresh id. -/
theorem stream_core_userRows (db2 : DB) (uid cid : Nat) (up : List UpEvent) (c : Nat)
    (hlt : ∀ m ∈ db2.messages, m.id < db2.nextMsgId) :
    userRows (stream_core db2 uid cid up).db c = userRows db2 c := by
  unfold stream_core userRows
  simp only [add_message_fst_id]
  obtain ⟨co, hco⟩ := processEvents_messages db2.nextMsgId cid uid (timeout_wrapper up) 1 ""
    (add_message db2 cid uid "assistant" "").2
  have hid3 : ∀ m ∈ (add_message db2 cid uid "assistant" "").2.messages,
      m.id = db2.nextMsgId → (fun m => m.chat_id == c && m.role == "user") m = false := by
    intro m hm hid
    rw [add_message_messages] at hm
    rcases List.mem_append.mp hm with h1 | h1
    · exact absurd hid (Nat.ne_of_lt (hlt m h1))
    · simp only [List.mem_singleton] at h1
      subst h1
      simp
  have hp : ∀ (m : MsgRow) (cc : String),
      (fun m => m.chat_id == c && m.role == "user") { m with content := cc }
        = (fun m => m.chat_id == c && m.role == "user") m := fun m cc => rfl
  have hmain : ∀ co2 : Option String,
      List.filter (fun m => m.chat_id == c && m.role == "user")
          (applyCo (add_message db2 cid uid "assistant" "").2.messages db2.nextMsgId co2)
        = List.filter (fun m => m.chat_id == c && m.role == "user") db2.messages := by
    intro co2
    rw [filter_applyCo db2.nextMsgId co2 _ hp _ hid3, add_message_messages, List.filter_append]
    simp
  split
  · have h1 : (setMessageContent (processEvents db2.nextMsgId cid uid (timeout_wrapper up) 1 ""
          (add_message db2 cid uid "assistant" "").2).db db2.nextMsgId
          (processEvents db2.nextMsgId cid uid (timeout_wrapper up) 1 ""
            (add_message db2 cid uid "assistant" "").2).acc).messages
        = applyCo (add_message db2 cid uid "assistant" "").2.messages db2.nextMsgId
            (some (processEvents db2.nextMsgId cid uid (timeout_wrapper up) 1 ""
              (add_message db2 cid uid "assistant" "").2).acc) := by
      rw [setMessageContent_messages, hco]
      cases co with
      | none => rfl
      | some ccc =>
        show applyCo (applyCo (add_message db2 cid uid "assistant" "").2.messages db2.nextMsgId
            (some ccc)) db2.nextMsgId
            (some (processEvents db2.nextMsgId cid uid (timeout_wrapper up) 1 ""
              (add_message db2 cid uid "assistant" "").2).acc) = _
        exact applyCo_applyCo _ _ _ _
    rw [h1]
    exact hmain _
  · rw [hco]
    exact hmain co

/-! ### Concrete states used in counterexamples and witnesses -/

/-- A chat whose `agent_chat_id` is still unset, for the ensure-failure path. -/
def c1db : DB :=
  { chats := [{ id := 0, user_id := 7 }], messages := [], steps := [], nextMsgId := 1, now := 0 }

/-- A chat with a cached `agent_chat_id` and no messages yet. -/
def c2db : DB :=
  { chats := [{ id := 0, user_id := 7, agent_chat_id := some "a" }],
    messages := [], steps := [], nextMsgId := 1, now := 0 }

/-- A chat holding two user messages "A" then "B": the most recent user
message is "B", but an identical-content match for "A" exists further back. -/
def c6db : DB :=
  { chats := [{ id := 0, user_id := 7, agent_chat_id := some "a" }],
    messages := [{ id := 1, chat_id := 0, user_id := 7, role := "user", content := "A", created_at := 0 },
                 { id := 2, chat_id := 0, user_id := 7, role := "user", content := "B", created_at := 1 }],
    steps := [], nextMsgId := 3, now := 2 }

/-- A single user-owned message whose content is the empty string. -/
def c8db : DB :=
  { chats := [{ id := 0, user_id := 7 }],
    messages := [{ id := 1, chat_id := 0, user_id := 7, role := "user", content := "", created_at := 0 }],
    steps := [], nextMsgId := 2, now := 1 }

/-- One user with a verified fallback phone and no sessions. -/
def c9db : FallbackDB :=
  { users := [{ id := 7, fallback_phone := some "p", fallback_phone_verified := true }],
    sessions := [], nextSessionId := 1 }

/-! ### Counterexamples and the C7 bug evaluation -/

/-- C1 counterexample: when `ensure_agent_chat` fails (remote creation raises
"boom" on a chat with no cached agent_chat_id), `send_message_stream` yields
exactly one `error` event and NO `end` event — contradicting the claim that a
single `error` event is followed by an `end` event. -/
theorem c1_counterexample :
    (send_message_stream c1db 7 0 "hi" (Except.error "boom") [⟨"thinking", {}⟩]).events.map Frame.ftype
      = ["error"] ∧
    ∀ f ∈ (send_message_stream c1db 7 0 "hi" (Except.error "boom") [⟨"thinking", {}⟩]).events,
      f.ftype ≠ "end" := by decide

/-- C2 counterexample: an upstream `error` event arriving while the
accumulator is empty.  The terminal `end` event carries `final_content = ""`,
but the persisted assistant content is the apology string — they differ,
contradicting the claim. -/
theorem c2_counterexample :
    (send_message_stream c2db 7 0 "hi" (Except.ok "a") [⟨"error", { error := some "boom" }⟩]).events.getLast?
      = some (Frame.endF 2 0 "") ∧
    contentOf (send_message_stream c2db 7 0 "hi" (Except.ok "a") [⟨"error", { error := some "boom" }⟩]).db 2
      = some (apology "boom") ∧
    some (apology "boom") ≠ some "" := by decide

/-- C6 counterexample: the most recent user message of the chat is "B" ≠ "A",
so by the claim a new user row should be inserted for message "A"; but the
dedup query matches the older "A" row and no user row is inserted (the user
row count stays 2). -/
theorem c6_counterexample :
    (mostRecentUserMessage c6db 0).map MsgRow.content = some "B" ∧
    ("B" : String) ≠ "A" ∧
    (userRows (send_message_stream c6db 7 0 "A" (Except.ok "a") []).db 0).length
      = (userRows c6db 0).length := by decide

/-- C7: editing a message id that does not exist (or is not owned by the
caller, or has role ≠ "user") responds 500, not 404: the endpoint's own
`raise HTTPException(404)` is swallowed by the blanket `except Exception` and
re-raised as 500 "Failed to edit message". -/
theorem c7_missing_message_returns_500 :
    edit_message c8db 99 7 "new" = (500, c8db) ∧ (500 : Nat) ≠ 404 := by decide

/-- C8 counterexample: a user message whose pre-edit content is the empty
string.  The first edit records `original_content = some ""`; because the
guard `if not message.original_content` treats `""` as unset, the second edit
overwrites it with the first edit's content "X" — contradicting the claim
that a second edit never overwrites the recorded original_content. -/
theorem c8_counterexample :
    origOf (edit_message c8db 1 7 "X").2 1 = some "" ∧
    origOf (edit_message (edit_message c8db 1 7 "X").2 1 7 "Y").2 1 = some "X" ∧
    (some "X" : Option String) ≠ some "" := by decide

theorem dedup_stepsLt (db1 : DB) (cid uid : Nat) (msg : String)
    (h : ∀ s ∈ db1.steps, s.message_id < db1.nextMsgId) :
    ∀ s ∈ (dedup_user_message db1 cid uid msg).steps,
      s.message_id ≠ (dedup_user_message db1 cid uid msg).nextMsgId := by
  intro s hs
  rw [dedup_steps] at hs
  exact Nat.ne_of_lt (Nat.lt_of_lt_of_le (h s hs) (dedup_nextMsgId_le db1 cid uid msg))

theorem enumSteps_length (aid cid uid : Nat) (evs : List UpEvent) :
    ∀ order : Nat, (enumSteps aid cid uid evs order).length = evs.length := by
  induction evs with
  | nil => intro order; rfl
  | cons e rest ih => intro order; simp [enumSteps, ih]

theorem stream_core_steps_total (db2 : DB) (uid cid : Nat) (up : List UpEvent) :
    (stream_core db2 uid cid up).db.steps
      = db2.steps ++ enumSteps db2.nextMsgId cid uid (consumed (timeout_wrapper up)) 1 := by
  unfold stream_core
  simp only [add_message_fst_id]
  split
  · rw [setMessageContent_steps, processEvents_steps, add_message_steps]
  · rw [processEvents_steps, add_message_steps]

/-! ### Claim theorems -/

/-- C1 (amended): when remote agent-chat creation fails on a chat with no
cached agent_chat_id, `send_message_stream` emits a single `error` event and
terminates without any `end` event of its own — the terminal `end` frame of
the SSE stream is appended by the route's stream_generator — and the database
is untouched: no upstream streaming call is consumed and nothing new is
persisted by the service. -/
theorem c1_amended (db0 : DB) (uid cid : Nat) (msg emsg : String)
    (up : List UpEvent) (chat : ChatRow)
    (hchat : get_chat_by_id db0 cid uid = some chat)
    (hagent : chat.agent_chat_id = none) :
    (send_message_stream db0 uid cid msg (Except.error emsg) up).events
      = [Frame.errorF ("Failed to create agent chat: " ++ emsg) none cid] ∧
    (send_message_stream db0 uid cid msg (Except.error emsg) up).db = db0 ∧
    (stream_generator (send_message_stream db0 uid cid msg (Except.error emsg) up).events
        none cid).map Frame.ftype = ["error", "end"] := by
  have hens : ensure_agent_chat db0 chat (Except.error emsg) = Except.error emsg := by
    unfold ensure_agent_chat
    rw [hagent]
  have heq : send_message_stream db0 uid cid msg (Except.error emsg) up
      = { events := [Frame.errorF ("Failed to create agent chat: " ++ emsg) none cid], db := db0 } := by
    simp only [send_message_stream, hchat, hens]
  rw [heq]
  exact ⟨rfl, rfl, rfl⟩

/-- C1 witness: the amended theorem applied at a concrete state. -/
theorem c1_amended_witness :
    (send_message_stream c1db 7 0 "hi" (Except.error "boom") []).events
      = [Frame.errorF ("Failed to create agent chat: " ++ "boom") none 0] ∧
    (send_message_stream c1db 7 0 "hi" (Except.error "boom") []).db = c1db ∧
    (stream_generator (send_message_stream c1db 7 0 "hi" (Except.error "boom") []).events
        none 0).map Frame.ftype = ["error", "end"] :=
  c1_amended c1db 7 0 "hi" "boom" [] { id := 0, user_id := 7 } (by decide) (by decide)

/-- C2 (amended): every invocation that reaches the streaming loop yields a
terminal `end` event whose `final_content` equals the assistant message's
persisted content, unless an upstream `error` event was consumed while the
accumulator was still empty — in that case `final_content` is `""` while the
persisted content is the apology string. -/
theorem c2_amended (db0 : DB) (uid cid : Nat) (msg : String) (rc : Except String String)
    (up : List UpEvent) (chat : ChatRow) (g : String) (db1 : DB)
    (hWF : DBWF db0)
    (hchat : get_chat_by_id db0 cid uid = some chat)
    (hens : ensure_agent_chat db0 chat rc = Except.ok (g, db1)) :
    ∃ aid f,
      (send_message_stream db0 uid cid msg rc up).events.getLast? = some (Frame.endF aid cid f) ∧
      (contentOf (send_message_stream db0 uid cid msg rc up).db aid = some f ∨
        (f = "" ∧ ∃ e, contentOf (send_message_stream db0 uid cid msg rc up).db aid
          = some (apology e))) := by
  obtain ⟨hm1, hs1, hn1, hw1⟩ := ensure_ok_fields db0 chat rc g db1 hens
  rw [send_ok db0 uid cid msg rc up chat g db1 hchat hens]
  have hlt2 : ∀ m ∈ (dedup_user_message db1 cid uid msg).messages,
      m.id < (dedup_user_message db1 cid uid msg).nextMsgId := by
    apply dedup_idsLt
    rw [hm1, hn1]
    exact hWF.2.1
  exact ⟨(dedup_user_message db1 cid uid msg).nextMsgId,
    coreAcc (dedup_user_message db1 cid uid msg) uid cid up,
    stream_core_last (dedup_user_message db1 cid uid msg) uid cid up,
    stream_core_end_content (dedup_user_message db1 cid uid msg) uid cid up hlt2⟩

/-- C2 witness: the amended theorem applied at a concrete state. -/
theorem c2_amended_witness :
    ∃ aid f,
      (send_message_stream c2db 7 0 "hi" (Except.ok "a") []).events.getLast?
        = some (Frame.endF aid 0 f) ∧
      (contentOf (send_message_stream c2db 7 0 "hi" (Except.ok "a") []).db aid = some f ∨
        (f = "" ∧ ∃ e, contentOf (send_message_stream c2db 7 0 "hi" (Except.ok "a") []).db aid
          = some (apology e))) :=
  c2_amended c2db 7 0 "hi" (Except.ok "a") [] { id := 0, user_id := 7, agent_chat_id := some "a" }
    "a" c2db (by refine ⟨?_, ?_, ?_⟩ <;> decide) (by decide) (by rfl)

/-- C10: the route's stream_generator always terminates the SSE stream with
its own `{"type":"end","chat_id":...}` frame — after the forwarded events on
normal completion and after an error frame when iteration raises — and on a
normally completed turn (chat found, agent chat ensured) the stream ends with
two consecutive "end"-typed frames: the orchestrator's `end` event (carrying
message id and final content) followed by the route's end frame. -/
theorem c10_route_end_frame :
    (∀ (evs : List Frame) (exc : Option (Nat × String)) (cid : Nat),
      (stream_generator evs exc cid).getLast? = some (Frame.routeEndF cid)) ∧
    (∀ (db0 : DB) (uid cid : Nat) (msg : String) (rc : Except String String)
        (up : List UpEvent) (chat : ChatRow) (g : String) (db1 : DB),
      get_chat_by_id db0 cid uid = some chat →
      ensure_agent_chat db0 chat rc = Except.ok (g, db1) →
      ∃ (l : List Frame) (aid : Nat) (f : String),
        stream_generator (send_message_stream db0 uid cid msg rc up).events none cid
          = l ++ [Frame.endF aid cid f, Frame.routeEndF cid]) := by
  constructor
  · intro evs exc cid
    match exc with
    | none => exact getLast?_append_singleton _ _
    | some (k, emsg) =>
      show (evs.take k ++ [Frame.routeErrorF emsg cid, Frame.routeEndF cid]).getLast? = _
      rw [show evs.take k ++ [Frame.routeErrorF emsg cid, Frame.routeEndF cid]
          = (evs.take k ++ [Frame.routeErrorF emsg cid]) ++ [Frame.routeEndF cid] by
        simp [List.append_assoc]]
      exact getLast?_append_singleton _ _
  · intro db0 uid cid msg rc up chat g db1 hchat hens
    rw [send_ok db0 uid cid msg rc up chat g db1 hchat hens]
    refine ⟨(processEvents (dedup_user_message db1 cid uid msg).nextMsgId cid uid
        (timeout_wrapper up) 1 ""
        (add_message (dedup_user_message db1 cid uid msg) cid uid "assistant" "").2).frames,
      (dedup_user_message db1 cid uid msg).nextMsgId,
      coreAcc (dedup_user_message db1 cid uid msg) uid cid up, ?_⟩
    unfold stream_generator stream_core coreAcc
    simp [List.append_assoc]

/-- C10 witness: both parts applied at concrete inputs. -/
theorem c10_route_end_frame_witness :
    (stream_generator [Frame.chunk "x" 2 0] (some (1, "boom")) 0).getLast?
      = some (Frame.routeEndF 0) ∧
    ∃ (l : List Frame) (aid : Nat) (f : String),
      stream_generator (send_message_stream c2db 7 0 "hi" (Except.ok "a") []).events none 0
        = l ++ [Frame.endF aid 0 f, Frame.routeEndF 0] :=
  ⟨c10_route_end_frame.1 [Frame.chunk "x" 2 0] (some (1, "boom")) 0,
   c10_route_end_frame.2 c2db 7 0 "hi" (Except.ok "a") []
     { id := 0, user_id := 7, agent_chat_id := some "a" } "a" c2db (by decide) (by rfl)⟩

/-- Upstream events of the spec's C3 scenario. -/
def c3ev1 : UpEvent := ⟨"thinking", { content := some "..." }⟩

/-- First response chunk of the C3 scenario. -/
def c3ev2 : UpEvent := ⟨"response_chunk", { content := some "Rice " }⟩

/-- Second response chunk of the C3 scenario. -/
def c3ev3 : UpEvent := ⟨"response_chunk", { content := some "grows well." }⟩

/-- Final full-response event of the C3 scenario. -/
def c3ev4 : UpEvent := ⟨"response", { response := some "Rice grows well in wet climates." }⟩

/-- C3: when the upstream stream is any non-error events followed by a
`response` event with a non-empty `response` field (within the event cap), the
persisted assistant content is exactly that response value — the full response
replaces any concatenation of chunks — and one ReasoningStep row exists per
received event, with step_order 1..n in reception order and step_type the
event types. -/
theorem c3_full_response_wins (db0 : DB) (uid cid : Nat) (msg : String)
    (rc : Except String String) (pre : List UpEvent) (ev : UpEvent) (resp : String)
    (chat : ChatRow) (g : String) (db1 : DB)
    (hWF : DBWF db0)
    (hchat : get_chat_by_id db0 cid uid = some chat)
    (hens : ensure_agent_chat db0 chat rc = Except.ok (g, db1))
    (hne : ∀ x ∈ pre, x.type ≠ "error")
    (hty : ev.type = "response")
    (hr : ev.data.response = some resp)
    (hresp : resp ≠ "")
    (hlen : (pre ++ [ev]).length ≤ 1001) :
    ∃ aid,
      (send_message_stream db0 uid cid msg rc (pre ++ [ev])).events.getLast?
        = some (Frame.endF aid cid resp) ∧
      contentOf (send_message_stream db0 uid cid msg rc (pre ++ [ev])).db aid = some resp ∧
      (stepsFor (send_message_stream db0 uid cid msg rc (pre ++ [ev])).db aid).map StepRow.step_order
        = List.range' 1 (pre ++ [ev]).length ∧
      (stepsFor (send_message_stream db0 uid cid msg rc (pre ++ [ev])).db aid).map StepRow.step_type
        = (pre ++ [ev]).map UpEvent.type := by
  obtain ⟨hm1, hs1, hn1, hw1⟩ := ensure_ok_fields db0 chat rc g db1 hens
  rw [send_ok db0 uid cid msg rc (pre ++ [ev]) chat g db1 hchat hens]
  have hlt2 : ∀ m ∈ (dedup_user_message db1 cid uid msg).messages,
      m.id < (dedup_user_message db1 cid uid msg).nextMsgId := by
    apply dedup_idsLt
    rw [hm1, hn1]
    exact hWF.2.1
  have hstep2 := dedup_stepsLt db1 cid uid msg (by rw [hs1, hn1]; exact hWF.2.2)
  have htake : timeout_wrapper (pre ++ [ev]) = pre ++ [ev] := List.take_of_length_le hlen
  have hnoerr : ∀ x ∈ pre ++ [ev], x.type ≠ "error" := by
    intro x hx
    rcases List.mem_append.mp hx with h1 | h1
    · exact hne x h1
    · simp only [List.mem_singleton] at h1
      subst h1
      rw [hty]
      decide
  have hacc : coreAcc (dedup_user_message db1 cid uid msg) uid cid (pre ++ [ev]) = resp := by
    unfold coreAcc
    rw [htake]
    exact processEvents_acc_last_response _ cid uid pre ev resp hne hty hr hresp 1 "" _
  refine ⟨(dedup_user_message db1 cid uid msg).nextMsgId, ?_, ?_, ?_, ?_⟩
  · rw [stream_core_last, hacc]
  · rcases stream_core_end_content (dedup_user_message db1 cid uid msg) uid cid (pre ++ [ev]) hlt2
      with hl | ⟨hz, -⟩
    · rw [hl, hacc]
    · exact absurd (hacc.symm.trans hz) hresp
  · rw [stream_core_steps _ _ _ _ hstep2, htake, consumed_of_noError _ hnoerr, enumSteps_orders]
  · rw [stream_core_steps _ _ _ _ hstep2, htake, consumed_of_noError _ hnoerr, enumSteps_types]

/-- C3 witness: the spec's scenario — thinking, two chunks, then the full
response — yields exactly the full response as persisted content and 4
ReasoningStep rows with step_order 1..4. -/
theorem c3_full_response_wins_witness :
    ∃ aid,
      (send_message_stream c2db 7 0 "Q" (Except.ok "a") [c3ev1, c3ev2, c3ev3, c3ev4]).events.getLast?
        = some (Frame.endF aid 0 "Rice grows well in wet climates.") ∧
      contentOf (send_message_stream c2db 7 0 "Q" (Except.ok "a") [c3ev1, c3ev2, c3ev3, c3ev4]).db aid
        = some "Rice grows well in wet climates." ∧
      (stepsFor (send_message_stream c2db 7 0 "Q" (Except.ok "a") [c3ev1, c3ev2, c3ev3, c3ev4]).db
          aid).map StepRow.step_order = List.range' 1 4 ∧
      (stepsFor (send_message_stream c2db 7 0 "Q" (Except.ok "a") [c3ev1, c3ev2, c3ev3, c3ev4]).db
          aid).map StepRow.step_type
        = ["thinking", "response_chunk", "response_chunk", "response"] :=
  c3_full_response_wins c2db 7 0 "Q" (Except.ok "a") [c3ev1, c3ev2, c3ev3] c3ev4
    "Rice grows well in wet climates." { id := 0, user_id := 7, agent_chat_id := some "a" }
    "a" c2db (by refine ⟨?_, ?_, ?_⟩ <;> decide) (by decide) (by rfl) (by decide) (by rfl)
    (by rfl) (by decide) (by decide)

/-- C4: for every invocation that reaches the streaming loop, the
ReasoningStep rows recorded for the invocation's assistant message id carry
step_order values forming exactly the sequence 1..n with no gaps (n the number
of consumed upstream events), and step_type follows the upstream events in
reception order.  Local DB inserts are modelled as always succeeding. -/
theorem c4_step_order_sequence (db0 : DB) (uid cid : Nat) (msg : String)
    (rc : Except String String) (up : List UpEvent) (chat : ChatRow) (g : String) (db1 : DB)
    (hWF : DBWF db0)
    (hchat : get_chat_by_id db0 cid uid = some chat)
    (hens : ensure_agent_chat db0 chat rc = Except.ok (g, db1)) :
    ∃ aid f,
      (send_message_stream db0 uid cid msg rc up).events.getLast? = some (Frame.endF aid cid f) ∧
      (stepsFor (send_message_stream db0 uid cid msg rc up).db aid).map StepRow.step_order
        = List.range' 1 (consumed (timeout_wrapper up)).length ∧
      (stepsFor (send_message_stream db0 uid cid msg rc up).db aid).map StepRow.step_type
        = (consumed (timeout_wrapper up)).map UpEvent.type := by
  obtain ⟨hm1, hs1, hn1, hw1⟩ := ensure_ok_fields db0 chat rc g db1 hens
  rw [send_ok db0 uid cid msg rc up chat g db1 hchat hens]
  have hstep2 := dedup_stepsLt db1 cid uid msg (by rw [hs1, hn1]; exact hWF.2.2)
  exact ⟨(dedup_user_message db1 cid uid msg).nextMsgId,
    coreAcc (dedup_user_message db1 cid uid msg) uid cid up,
    stream_core_last _ _ _ _,
    by rw [stream_core_steps _ _ _ _ hstep2, enumSteps_orders],
    by rw [stream_core_steps _ _ _ _ hstep2, enumSteps_types]⟩

/-- C4 witness: the theorem applied at a concrete state and stream. -/
theorem c4_step_order_sequence_witness :
    ∃ aid f,
      (send_message_stream c2db 7 0 "hi" (Except.ok "a") [c3ev1, c3ev4]).events.getLast?
        = some (Frame.endF aid 0 f) ∧
      (stepsFor (send_message_stream c2db 7 0 "hi" (Except.ok "a") [c3ev1, c3ev4]).db aid).map
          StepRow.step_order
        = List.range' 1 (consumed (timeout_wrapper [c3ev1, c3ev4])).length ∧
      (stepsFor (send_message_stream c2db 7 0 "hi" (Except.ok "a") [c3ev1, c3ev4]).db aid).map
          StepRow.step_type
        = (consumed (timeout_wrapper [c3ev1, c3ev4])).map UpEvent.type :=
  c4_step_order_sequence c2db 7 0 "hi" (Except.ok "a") [c3ev1, c3ev4]
    { id := 0, user_id := 7, agent_chat_id := some "a" } "a" c2db
    (by refine ⟨?_, ?_, ?_⟩ <;> decide) (by decide) (by rfl)

/-- C5 (amended): every invocation that reaches the streaming loop consumes
and forwards at most 1001 upstream events — the cap check `count > 1000` runs
after the yield, so the 1001st event is still consumed and forwarded, and
consumption stops only after it.  The yielded events are exactly the forwarded
ones plus the single terminal `end` event. -/
theorem c5_amended (db0 : DB) (uid cid : Nat) (msg : String) (rc : Except String String)
    (up : List UpEvent) (chat : ChatRow) (g : String) (db1 : DB)
    (hchat : get_chat_by_id db0 cid uid = some chat)
    (hens : ensure_agent_chat db0 chat rc = Except.ok (g, db1)) :
    (send_message_stream db0 uid cid msg rc up).events.length
        = (consumed (timeout_wrapper up)).length + 1 ∧
    (consumed (timeout_wrapper up)).length ≤ 1001 := by
  constructor
  · rw [send_ok db0 uid cid msg rc up chat g db1 hchat hens]
    exact stream_core_events_length _ _ _ _
  · exact Nat.le_trans (consumed_length_le _)
      (by simp [timeout_wrapper] )

/-- C5 witness: the amended theorem applied at a concrete state. -/
theorem c5_amended_witness :
    (send_message_stream c2db 7 0 "hi" (Except.ok "a") [c3ev1]).events.length
        = (consumed (timeout_wrapper [c3ev1])).length + 1 ∧
    (consumed (timeout_wrapper [c3ev1])).length ≤ 1001 :=
  c5_amended c2db 7 0 "hi" (Except.ok "a") [c3ev1]
    { id := 0, user_id := 7, agent_chat_id := some "a" } "a" c2db (by decide) (by rfl)

/-- A "thinking" event used to build the 1001-event stream. -/
def c5ev : UpEvent := ⟨"thinking", {}⟩

/-- C5 counterexample: with 1001 upstream events and no error, the loop
records 1001 ReasoningStep rows (one per consumed event) and yields 1002
events (1001 forwarded plus the terminal `end`) — so 1001 upstream events
were consumed and forwarded, contradicting the claimed cap of 1000. -/
theorem c5_counterexample :
    (send_message_stream c2db 7 0 "hi" (Except.ok "a") (List.replicate 1001 c5ev)).db.steps.length
        = 1001 ∧
    (send_message_stream c2db 7 0 "hi" (Except.ok "a") (List.replicate 1001 c5ev)).events.length
        = 1002 ∧
    ¬ (1001 ≤ 1000) := by
  have hsend := send_ok c2db 7 0 "hi" (Except.ok "a") (List.replicate 1001 c5ev)
    { id := 0, user_id := 7, agent_chat_id := some "a" } "a" c2db (by decide) (by rfl)
  have hcons : consumed (timeout_wrapper (List.replicate 1001 c5ev)) = List.replicate 1001 c5ev := by
    have ht : timeout_wrapper (List.replicate 1001 c5ev) = List.replicate 1001 c5ev :=
      List.take_of_length_le (le_of_eq (List.length_replicate 1001 c5ev))
    rw [ht]
    apply consumed_of_noError
    intro x hx
    rw [(List.mem_replicate.mp hx).2]
    decide
  refine ⟨?_, ?_, by decide⟩
  · rw [hsend, stream_core_steps_total, hcons, List.length_append, enumSteps_length,
      List.length_replicate]
    rw [dedup_steps]
    rfl
  · rw [hsend, stream_core_events_length, hcons, List.length_replicate]

/-- C6 (amended): the user message is deduplicated against ANY identical
content user message in the chat (the query matches same chat, role "user",
same content, same owner, taking the most recent such row): when a match
exists nowhere a new user row is inserted and the chat's user rows are
unchanged; only when no identical-content user message exists at all is a new
user ChatMessage inserted. -/
theorem c6_amended (db0 : DB) (uid cid : Nat) (msg : String) (rc : Except String String)
    (up : List UpEvent) (chat : ChatRow) (g : String) (db1 : DB)
    (hWF : DBWF db0)
    (hchat : get_chat_by_id db0 cid uid = some chat)
    (hens : ensure_agent_chat db0 chat rc = Except.ok (g, db1)) :
    userRows (send_message_stream db0 uid cid msg rc up).db cid
      = (if (latestMatchingUserMessage db0 cid uid msg).isSome
         then userRows db0 cid
         else userRows db0 cid ++ [{ id := db0.nextMsgId, chat_id := cid, user_id := uid,
                                     role := "user", content := msg, created_at := db0.now }]) := by
  obtain ⟨hm1, hs1, hn1, hw1⟩ := ensure_ok_fields db0 chat rc g db1 hens
  rw [send_ok db0 uid cid msg rc up chat g db1 hchat hens]
  have hlt2 : ∀ m ∈ (dedup_user_message db1 cid uid msg).messages,
      m.id < (dedup_user_message db1 cid uid msg).nextMsgId := by
    apply dedup_idsLt
    rw [hm1, hn1]
    exact hWF.2.1
  rw [stream_core_userRows _ _ _ _ _ hlt2]
  unfold dedup_user_message
  have hlm : latestMatchingUserMessage db1 cid uid msg = latestMatchingUserMessage db0 cid uid msg := by
    unfold latestMatchingUserMessage
    rw [hm1]
  rw [hlm]
  cases hq : latestMatchingUserMessage db0 cid uid msg with
  | some m0 =>
    simp only [Option.isSome_some, if_true]
    unfold userRows
    rw [hm1]
  | none =>
    simp only [Option.isSome_none, Bool.false_eq_true, if_false]
    unfold userRows
    rw [add_message_messages, hm1, hn1, hw1, List.filter_append]
    simp

/-- C6 witness: the amended theorem applied at a concrete state with no
matching user message (a new user row is inserted). -/
theorem c6_amended_witness :
    userRows (send_message_stream c2db 7 0 "hello" (Except.ok "a") []).db 0
      = (if (latestMatchingUserMessage c2db 0 7 "hello").isSome
         then userRows c2db 0
         else userRows c2db 0 ++ [{ id := c2db.nextMsgId, chat_id := 0, user_id := 7,
                                    role := "user", content := "hello",
                                    created_at := c2db.now }]) :=
  c6_amended c2db 7 0 "hello" (Except.ok "a") []
    { id := 0, user_id := 7, agent_chat_id := some "a" } "a" c2db
    (by refine ⟨?_, ?_, ?_⟩ <;> decide) (by decide) (by rfl)

/-- C8 (amended): a successful edit of a user message created at time T
returns 200 and (a) deletes every ChatMessage of the same chat with
created_at > T — none of their ids survive; (b) leaves every other row with
created_at <= T (or in another chat) in place unchanged; (c) overwrites the
edited row's content with the request body; (d) records original_content:
the pre-edit content when original_content was null OR empty (Python
falsiness), the previous value otherwise — hence (e) a second edit preserves
an original_content that is non-empty, while an empty recorded
original_content is overwritten (see the counterexample). -/
theorem c8_amended (db : DB) (mid uid : Nat) (newContent : String) (message : MsgRow)
    (hnodup : (db.messages.map MsgRow.id).Nodup)
    (hlook : edit_message_lookup db mid uid = some message) :
    (edit_message db mid uid newContent).1 = 200 ∧
    (∀ m ∈ db.messages, m.chat_id = message.chat_id → message.created_at < m.created_at →
      ∀ m' ∈ (edit_message db mid uid newContent).2.messages, m'.id ≠ m.id) ∧
    (∀ m ∈ db.messages, m.id ≠ mid →
      ¬(m.chat_id = message.chat_id ∧ message.created_at < m.created_at) →
      m ∈ (edit_message db mid uid newContent).2.messages) ∧
    contentOf (edit_message db mid uid newContent).2 mid = some newContent ∧
    origOf (edit_message db mid uid newContent).2 mid
      = (if origFalsy message.original_content then some message.content
         else message.original_content) ∧
    (∀ s, message.original_content = some s → s ≠ "" →
      origOf (edit_message db mid uid newContent).2 mid = some s) := by
  have hlook' := hlook
  unfold edit_message_lookup at hlook'
  obtain ⟨hmem, hpred⟩ := head?_filter_mem _ _ _ hlook'
  simp only [Bool.and_eq_true, beq_iff_eq] at hpred
  obtain ⟨⟨hmid, hpuid⟩, hprole⟩ := hpred
  have hred : edit_message db mid uid newContent
      = (200, { db with
          messages := (db.messages.map (fun m =>
            if m.id == mid then
              { m with
                  content := newContent,
                  is_edited := true,
                  original_content := if origFalsy message.original_content then
                    some message.content else message.original_content,
                  edited_at := some db.now }
            else m)).filter
              (fun m => !(m.chat_id == message.chat_id && message.created_at < m.created_at)),
          now := db.now + 1 }) := by
    simp only [edit_message, edit_message_core, hlook]
  have hidpres : ∀ x : MsgRow,
      ((if x.id == mid then
        { x with
            content := newContent,
            is_edited := true,
            original_content := if origFalsy message.original_content then
              some message.content else message.original_content,
            edited_at := some db.now }
      else x) : MsgRow).id = x.id
      ∧ ((if x.id == mid then
        { x with
            content := newContent,
            is_edited := true,
            original_content := if origFalsy message.original_content then
              some message.content else message.original_content,
            edited_at := some db.now }
      else x) : MsgRow).chat_id = x.chat_id
      ∧ ((if x.id == mid then
        { x with
            content := newContent,
            is_edited := true,
            original_content := if origFalsy message.original_content then
              some message.content else message.original_content,
            edited_at := some db.now }
      else x) : MsgRow).created_at = x.created_at := by
    intro x
    by_cases h : x.id = mid <;> simp [h]
  rw [hred]
  have hMif : (if message.id == mid then
      { message with
          content := newContent,
          is_edited := true,
          original_content := if origFalsy message.original_content then
            some message.content else message.original_content,
          edited_at := some db.now }
    else message)
      = { message with
          content := newContent,
          is_edited := true,
          original_content := if origFalsy message.original_content then
            some message.content else message.original_content,
          edited_at := some db.now } := if_pos (by simpa using hmid)
  have hM1 : ({ message with
      content := newContent,
      is_edited := true,
      original_content := if origFalsy message.original_content then
        some message.content else message.original_content,
      edited_at := some db.now } : MsgRow)
      ∈ db.messages.map (fun m =>
        if m.id == mid then
          { m with
              content := newContent,
              is_edited := true,
              original_content := if origFalsy message.original_content then
                some message.content else message.original_content,
              edited_at := some db.now }
        else m) := by
    have h2 := List.mem_map_of_mem (fun m =>
      if m.id == mid then
        { m with
            content := newContent,
            is_edited := true,
            original_content := if origFalsy message.original_content then
              some message.content else message.original_content,
            edited_at := some db.now }
      else m) hmem
    rwa [show ((fun m =>
      if m.id == mid then
        ({ m with
            content := newContent,
            is_edited := true,
            original_content := if origFalsy message.original_content then
              some message.content else message.original_content,
            edited_at := some db.now } : MsgRow)
      else m) message)
        = { message with
            content := newContent,
            is_edited := true,
            original_content := if origFalsy message.original_content then
              some message.content else message.original_content,
            edited_at := some db.now } from hMif] at h2
  have hMmem : ({ message with
      content := newContent,
      is_edited := true,
      original_content := if origFalsy message.original_content then
        some message.content else message.original_content,
      edited_at := some db.now } : MsgRow)
      ∈ (db.messages.map (fun m =>
        if m.id == mid then
          { m with
              content := newContent,
              is_edited := true,
              original_content := if origFalsy message.original_content then
                some message.content else message.original_content,
              edited_at := some db.now }
        else m)).filter
          (fun m => !(m.chat_id == message.chat_id && message.created_at < m.created_at)) := by
    refine List.mem_filter.mpr ⟨hM1, ?_⟩
    simp [lt_self_iff_false]
  have huniq : ∀ b ∈ ((db.messages.map (fun m =>
        if m.id == mid then
          { m with
              content := newContent,
              is_edited := true,
              original_content := if origFalsy message.original_content then
                some message.content else message.original_content,
              edited_at := some db.now }
        else m)).filter
          (fun m => !(m.chat_id == message.chat_id && message.created_at < m.created_at))).filter
            (fun m => m.id == mid),
      b = { message with
          content := newContent,
          is_edited := true,
          original_content := if origFalsy message.original_content then
            some message.content else message.original_content,
          edited_at := some db.now } := by
    intro b hb
    obtain ⟨hb2, hbid⟩ := List.mem_filter.mp hb
    obtain ⟨hb1, hbkeep⟩ := List.mem_filter.mp hb2
    obtain ⟨b0, hb0, hbupd⟩ := List.mem_map.mp hb1
    have hbid0 : b.id = b0.id := by
      rw [← hbupd]
      exact (hidpres b0).1
    have hbmid : b.id = mid := by simpa using hbid
    have hb0msg : b0 = message := by
      refine List.inj_on_of_nodup_map hnodup hb0 hmem ?_
      rw [← hbid0, hbmid, hmid]
    rw [← hbupd, hb0msg]
    exact hMif
  have hne0 : (((db.messages.map (fun m =>
        if m.id == mid then
          { m with
              content := newContent,
              is_edited := true,
              original_content := if origFalsy message.original_content then
                some message.content else message.original_content,
              edited_at := some db.now }
        else m)).filter
          (fun m => !(m.chat_id == message.chat_id && message.created_at < m.created_at))).filter
            (fun m => m.id == mid)) ≠ [] := by
    refine List.ne_nil_of_mem (List.mem_filter.mpr ⟨hMmem, ?_⟩)
    simpa using hmid
  have hmb : (((db.messages.map (fun m =>
        if m.id == mid then
          { m with
              content := newContent,
              is_edited := true,
              original_content := if origFalsy message.original_content then
                some message.content else message.original_content,
              edited_at := some db.now }
        else m)).filter
          (fun m => !(m.chat_id == message.chat_id && message.created_at < m.created_at))).filter
            (fun m => m.id == mid)).head?
      = some { message with
          content := newContent,
          is_edited := true,
          original_content := if origFalsy message.original_content then
            some message.content else message.original_content,
          edited_at := some db.now } :=
    head?_all_eq _ _ hne0 huniq
  refine ⟨rfl, ?_, ?_, ?_, ?_, ?_⟩
  · intro m hm hchat hlt m' hm' heq
    obtain ⟨hm'1, hkeep⟩ := List.mem_filter.mp hm'
    obtain ⟨m0, hm0, hupd⟩ := List.mem_map.mp hm'1
    have hfid : m'.id = m0.id := by
      rw [← hupd]
      exact (hidpres m0).1
    have hfchat : m'.chat_id = m0.chat_id := by
      rw [← hupd]
      exact (hidpres m0).2.1
    have hfcreated : m'.created_at = m0.created_at := by
      rw [← hupd]
      exact (hidpres m0).2.2
    have hm0m : m0 = m := by
      refine List.inj_on_of_nodup_map hnodup hm0 hm ?_
      rw [← hfid, heq]
    rw [hm0m] at hfchat hfcreated
    rw [hfchat, hchat, hfcreated] at hkeep
    simp [hlt] at hkeep
  · intro m hm hne hnot
    refine List.mem_filter.mpr ⟨?_, ?_⟩
    · have h2 := List.mem_map_of_mem (fun m =>
        if m.id == mid then
          { m with
              content := newContent,
              is_edited := true,
              original_content := if origFalsy message.original_content then
                some message.content else message.original_content,
              edited_at := some db.now }
        else m) hm
      rwa [show ((fun m =>
        if m.id == mid then
          ({ m with
              content := newContent,
              is_edited := true,
              original_content := if origFalsy message.original_content then
                some message.content else message.original_content,
              edited_at := some db.now } : MsgRow)
        else m) m) = m from if_neg (by simpa using hne)] at h2
    · have hfalse : (m.chat_id == message.chat_id && decide (message.created_at < m.created_at)) = false := by
        by_cases hc : m.chat_id = message.chat_id
        · have hl : ¬ message.created_at < m.created_at := fun hl => hnot ⟨hc, hl⟩
          simp [hc, hl]
        · simp [hc]
      simp [hfalse]
  · unfold contentOf messageById
    rw [hmb]
    rfl
  · unfold origOf messageById
    rw [hmb]
    rfl
  · intro s hsome hnes
    unfold origOf messageById
    rw [hmb]
    simp [hsome, origFalsy, hnes]

/-- A chat with a user message (original_content already "orig") and a later
assistant reply, for the C8 witness. -/
def c8wdb : DB :=
  { chats := [{ id := 0, user_id := 7 }],
    messages := [{ id := 1, chat_id := 0, user_id := 7, role := "user", content := "hello",
                   original_content := some "orig", created_at := 0 },
                 { id := 2, chat_id := 0, user_id := 7, role := "assistant", content := "reply",
                   created_at := 1 }],
    steps := [], nextMsgId := 3, now := 2 }

/-- The target row of the C8 witness. -/
def c8wmsg : MsgRow :=
  { id := 1, chat_id := 0, user_id := 7, role := "user", content := "hello",
    original_content := some "orig", created_at := 0 }

/-- C8 witness: the amended theorem applied at a concrete state. -/
theorem c8_amended_witness :
    (edit_message c8wdb 1 7 "new").1 = 200 ∧
    (∀ m ∈ c8wdb.messages, m.chat_id = c8wmsg.chat_id → c8wmsg.created_at < m.created_at →
      ∀ m' ∈ (edit_message c8wdb 1 7 "new").2.messages, m'.id ≠ m.id) ∧
    (∀ m ∈ c8wdb.messages, m.id ≠ 1 →
      ¬(m.chat_id = c8wmsg.chat_id ∧ c8wmsg.created_at < m.created_at) →
      m ∈ (edit_message c8wdb 1 7 "new").2.messages) ∧
    contentOf (edit_message c8wdb 1 7 "new").2 1 = some "new" ∧
    origOf (edit_message c8wdb 1 7 "new").2 1
      = (if origFalsy c8wmsg.original_content then some c8wmsg.content
         else c8wmsg.original_content) ∧
    (∀ s, c8wmsg.original_content = some s → s ≠ "" →
      origOf (edit_message c8wdb 1 7 "new").2 1 = some s) :=
  c8_amended c8wdb 1 7 "new" c8wmsg (by decide) (by decide)

/-- C9: under the sequential execution model, if at most one FallbackSession
is active for a user, then after one or two activate_fallback calls at most
one is still active, and a second call without an intervening deactivate
returns exactly the session the first call returned, making no further
writes. -/
theorem c9_activate_idempotent (db : FallbackDB) (uid : Nat)
    (hone : (activeSessionsFor db uid).length ≤ 1) :
    (activeSessionsFor (activate_fallback db uid).2 uid).length ≤ 1 ∧
    (activeSessionsFor (activate_fallback (activate_fallback db uid).2 uid).2 uid).length ≤ 1 ∧
    (∀ s, (activate_fallback db uid).1 = some s →
      (activate_fallback (activate_fallback db uid).2 uid).1 = some s ∧
      (activate_fallback (activate_fallback db uid).2 uid).2 = (activate_fallback db uid).2) := by
  cases hu : findUser db uid with
  | none =>
    have hid : activate_fallback db uid = (none, db) := by
      unfold activate_fallback
      rw [hu]
    simp only [hid]
    exact ⟨hone, hone, fun s hs => Option.noConfusion hs⟩
  | some u =>
    cases hv : hasVerifiedPhone u with
    | false =>
      have hid : activate_fallback db uid = (none, db) := by
        unfold activate_fallback
        rw [hu]
        simp [hv]
      simp only [hid]
      exact ⟨hone, hone, fun s hs => Option.noConfusion hs⟩
    | true =>
      cases hs : activeSession db uid with
      | some s0 =>
        have hid : activate_fallback db uid = (some s0, db) := by
          unfold activate_fallback
          rw [hu]
          simp [hv, hs]
        simp only [hid]
        refine ⟨hone, hone, fun s hsome => ⟨hsome, ?_⟩⟩
        trivial
      | none =>
        have hfilter : db.sessions.filter (fun x => x.user_id == uid && x.is_active) = [] := by
          have h' := hs
          unfold activeSession at h'
          exact List.head?_eq_none_iff.mp h'
        have hid : activate_fallback db uid
            = (some { id := db.nextSessionId, user_id := uid, is_active := true },
               { users :=
                   db.users.map (fun v =>
                     if v.id == uid then { v with fallback_active := true } else v)
                 sessions :=
                   db.sessions ++ [{ id := db.nextSessionId, user_id := uid, is_active := true }]
                 nextSessionId := db.nextSessionId + 1 }) := by
          unfold activate_fallback
          rw [hu]
          simp [hv, hs]
        have hfilter2 : (db.sessions
              ++ [({ id := db.nextSessionId, user_id := uid, is_active := true } : FallbackSession)]).filter
                (fun x => x.user_id == uid && x.is_active)
            = [({ id := db.nextSessionId, user_id := uid, is_active := true } : FallbackSession)] := by
          rw [List.filter_append, hfilter]
          simp
        have hu' : (db.users.filter (fun v => v.id == uid)).head? = some u := by
          unfold findUser at hu
          exact hu
        have hqu : (u.id == uid) = true := (head?_filter_mem _ _ _ hu').2
        have hfu' : findUser (activate_fallback db uid).2 uid
            = some { u with fallback_active := true } := by
          rw [hid]
          unfold findUser
          show ((db.users.map (fun v =>
              if v.id == uid then { v with fallback_active := true } else v)).filter
                (fun v => v.id == uid)).head? = _
          rw [filter_map_pres _ _ _ (fun v => by by_cases h : v.id = uid <;> simp [h]),
            head?_map', hu']
          have hqu' : u.id = uid := by simpa using hqu
          simp [hqu']
        have hv' : hasVerifiedPhone { u with fallback_active := true } = true := hv
        have hsact' : activeSession (activate_fallback db uid).2 uid
            = some { id := db.nextSessionId, user_id := uid, is_active := true } := by
          rw [hid]
          unfold activeSession
          show ((db.sessions
              ++ [({ id := db.nextSessionId, user_id := uid, is_active := true } : FallbackSession)]).filter
                (fun x => x.user_id == uid && x.is_active)).head? = _
          rw [hfilter2]
          rfl
        have hid2gen : ∀ dbx : FallbackDB,
            findUser dbx uid = some { u with fallback_active := true } →
            activeSession dbx uid = some { id := db.nextSessionId, user_id := uid, is_active := true } →
            activate_fallback dbx uid
              = (some { id := db.nextSessionId, user_id := uid, is_active := true }, dbx) := by
          intro dbx h1 h2
          unfold activate_fallback
          rw [h1]
          simp [hv', h2]
        have hid2 := hid2gen _ hfu' hsact'
        have hcount : (activeSessionsFor (activate_fallback db uid).2 uid).length ≤ 1 := by
          rw [hid]
          unfold activeSessionsFor
          show ((db.sessions
              ++ [({ id := db.nextSessionId, user_id := uid, is_active := true } : FallbackSession)]).filter
                (fun x => x.user_id == uid && x.is_active)).length ≤ 1
          rw [hfilter2]
          exact Nat.le_refl 1
        refine ⟨hcount, ?_, fun s hsome => ?_⟩
        · rw [hid2]
          exact hcount
        · rw [hid] at hsome
          rw [hid2]
          exact ⟨hsome, rfl⟩

/-- C9 witness: the theorem applied at a concrete state with one verified
user and no sessions. -/
theorem c9_activate_idempotent_witness :
    (activeSessionsFor (activate_fallback c9db 7).2 7).length ≤ 1 ∧
    (activeSessionsFor (activate_fallback (activate_fallback c9db 7).2 7).2 7).length ≤ 1 ∧
    (∀ s, (activate_fallback c9db 7).1 = some s →
      (activate_fallback (activate_fallback c9db 7).2 7).1 = some s ∧
      (activate_fallback (activate_fallback c9db 7).2 7).2 = (activate_fallback c9db 7).2) :=
  c9_activate_idempotent c9db 7 (by decide)

end SmartKrishi
